import Mathlib

/-!
Shallow embedding of the StarryNight conversion scripts
(`scripts/hyg_to_sqlite_brightest.py`, `scripts/hyg_to_sqlite_h3.py`,
`scripts/hyg_to_sqlite_star_info.py`, `scripts/sqlite_dump.py`,
`scripts/sqlite_schema.py`).

Modelling conventions:
* Python strings are modelled as `List Char`, restricted to ASCII text
  (the HYG catalog is ASCII); `str.strip`, `str.lower`, `str.isupper`
  are modelled on the ASCII fragment.
* Python `int(...)` / `float(...)` are modelled on the decimal-literal
  fragment (optional surrounding whitespace, optional sign, digits,
  optional fractional part), returning `Option` — `none` models the
  `ValueError` the scripts catch.  Values are exact rationals; the
  floats of the scripts are idealised as `ℚ` (and as `ℝ` for the
  trigonometric conversion), which is faithful for the ordering and
  control-flow properties proved here.
* `float('inf')` used for a missing magnitude is modelled by `⊤` in
  `WithTop ℚ`.
* The external `h3.latlng_to_cell` call is an abstract parameter: an
  oracle producing `Option Cell` (`none` models the exception the
  scripts catch), determined by the star's coordinates.
-/

namespace StarryNight

/-
## ASCII character helpers (models of Python `str` methods)
-/

/-- Model of Python whitespace for `str.strip` (ASCII fragment). -/
def pyIsSpace (c : Char) : Bool :=
  c = ' ' || c = '\t' || c = '\n' || c = '\x0d' || c = '\x0b' || c = '\x0c'

/-- Model of Python `ch.isupper()` on ASCII text. -/
def pyIsUpper (c : Char) : Bool :=
  'A' ≤ c && c ≤ 'Z'

/-- Model of Python `str.lower()` on one ASCII character. -/
def pyToLower (c : Char) : Char :=
  if 'A' ≤ c && c ≤ 'Z' then Char.ofNat (c.toNat + 32) else c

/-- Model of Python `str.strip()`: drop leading and trailing whitespace. -/
def pyStrip (s : List Char) : List Char :=
  ((s.dropWhile pyIsSpace).reverse.dropWhile pyIsSpace).reverse

/-- The first uppercase letter of a string, if any: model of the
`for char in s: if char.isupper(): return char` loops. -/
def firstUpper (s : List Char) : Option Char :=
  s.find? pyIsUpper

/-- Model of Python `s.lower().startswith(p)` (for an already lowercase `p`). -/
def lowerStartsWith (s p : List Char) : Bool :=
  p.isPrefixOf (s.map pyToLower)

/-
## `extract_spectral_class` (identical in
`hyg_to_sqlite_brightest.py` lines 18-43 and `hyg_to_sqlite_h3.py`
lines 24-49)
-/

/-- Embedding of `extract_spectral_class(spect)`.

```
if not spect or not spect.strip(): return None
spect = spect.strip()
if spect.lower().startswith('sd') and len(spect) > 2:
    <first uppercase of spect[2:] or fall through to return None>
elif spect.lower().startswith('d') and len(spect) > 1:
    <first uppercase of spect[1:] or fall through>
else:
    <first uppercase of spect or fall through>
return None
```
`not spect or not spect.strip()` is true exactly when the stripped
string is empty. -/
def extractSpectralClass (spect : List Char) : Option Char :=
  let t := pyStrip spect
  if t = [] then none
  else if lowerStartsWith t ['s', 'd'] && 2 < t.length then
    firstUpper (t.drop 2)
  else if lowerStartsWith t ['d'] && 1 < t.length then
    firstUpper (t.drop 1)
  else
    firstUpper t

/-- Claim C1 read literally: strip whitespace, strip a literal leading
`"sd"` or `"d"` (and only those), then the first uppercase letter of
what remains; `none` on an empty or all-whitespace string. -/
def spectralClassClaimC1 (spect : List Char) : Option Char :=
  let t := pyStrip spect
  if t = [] then none
  else if ['s', 'd'].isPrefixOf t then firstUpper (t.drop 2)
  else if ['d'].isPrefixOf t then firstUpper (t.drop 1)
  else firstUpper t

/-- Claim C1 as amended: the prefix test is case-insensitive
(`"sd"`, `"Sd"`, `"sD"`, `"SD"` and `"d"`, `"D"` all count), and a
prefix is stripped only when at least one character follows it;
otherwise the first uppercase letter of the whole stripped string is
taken. -/
def spectralClassAmendedC1 (spect : List Char) : Option Char :=
  let t := pyStrip spect
  let p : Nat :=
    if lowerStartsWith t ['s', 'd'] && 2 < t.length then 2
    else if lowerStartsWith t ['d'] && 1 < t.length then 1
    else 0
  if t = [] then none else firstUpper (t.drop p)

/-
## Numeric parsing (models of Python `int(...)` and `float(...)` on the
decimal-literal fragment; `none` models a raised `ValueError`)
-/

/-- Digit test, model of the characters `int`/`float` accept. -/
def isDigitA (c : Char) : Bool :=
  '0' ≤ c && c ≤ '9'

/-- Numeric value of a digit list (most significant first). -/
def digitsVal (ds : List Char) : Nat :=
  ds.foldl (fun acc c => 10 * acc + (c.toNat - 48)) 0

/-- Parse a nonempty all-digit string. -/
def parseDigits (s : List Char) : Option Nat :=
  if s ≠ [] && s.all isDigitA then some (digitsVal s) else none

/-- Strip one optional leading sign, returning the sign and the rest. -/
def splitSign (s : List Char) : Bool × List Char :=
  match s with
  | '-' :: rest => (true, rest)
  | '+' :: rest => (false, rest)
  | rest => (false, rest)

/-- Model of Python `int(s)`: optional surrounding whitespace, optional
sign, one or more digits; `none` models `ValueError`. -/
def pyInt (s : List Char) : Option Int :=
  let (neg, body) := splitSign (pyStrip s)
  (parseDigits body).map (fun n => if neg then -(n : Int) else (n : Int))

/-- Parse the unsigned body of a decimal float literal: digits with an
optional point, at least one digit overall (`"12"`, `"12."`, `".5"`,
`"1.25"`). -/
def parseUnsignedFloat (s : List Char) : Option ℚ :=
  let intPart := s.takeWhile isDigitA
  let rest := s.dropWhile isDigitA
  match rest with
  | [] => if intPart ≠ [] then some ((digitsVal intPart : ℚ)) else none
  | '.' :: frac =>
    if frac.all isDigitA && (intPart ≠ [] || frac ≠ []) then
      some ((digitsVal intPart : ℚ) + (digitsVal frac : ℚ) / (10 : ℚ) ^ frac.length)
    else none
  | _ => none

/-- Model of Python `float(s)` on the finite decimal fragment
(optional surrounding whitespace, optional sign, decimal literal);
`none` models `ValueError`.  The exotic inputs `float` also accepts
(`"inf"`, `"nan"`, exponents, underscores) are outside the model. -/
def pyFloat (s : List Char) : Option ℚ :=
  let (neg, body) := splitSign (pyStrip s)
  (parseUnsignedFloat body).map (fun q => if neg then -q else q)

/-
## Star records and the shared CSV row-reading loops
-/

/-- One CSV row as the scripts see it: the raw text of the six columns
they access (`validate_csv_file` guarantees the columns exist;
`row.get('spect', '')` defaults to the empty string). -/
structure Row where
  id : List Char
  mag : List Char
  x : List Char
  y : List Char
  z : List Char
  spect : List Char
deriving DecidableEq, Repr

/-- The star record built by the read loops of
`hyg_to_sqlite_brightest.py` / `hyg_to_sqlite_h3.py` after the
missing-coordinate check: `id` may be `None`, a missing magnitude is
`float('inf')` (`⊤`), and the coordinates are present. -/
structure Star where
  id : Option Int
  mag : WithTop ℚ
  x : ℚ
  y : ℚ
  z : ℚ
  spectClass : Option Char
deriving DecidableEq, Repr

/-- Model of `int(row['id']) if row['id'] else None`: empty field gives `None`,
otherwise a failed parse raises (`none` at the outer level). -/
def convId (s : List Char) : Option (Option Int) :=
  if s = [] then some none else (pyInt s).map some

/-- Model of `float(row['mag']) if row['mag'] else float('inf')`: empty field
gives `+∞`, otherwise a failed parse raises. -/
def convMag (s : List Char) : Option (WithTop ℚ) :=
  if s = [] then some ⊤ else (pyFloat s).map (fun q => (q : WithTop ℚ))

/-- Model of `float(row['x']) if row['x'] else None` for a coordinate field. -/
def convCoord (s : List Char) : Option (Option ℚ) :=
  if s = [] then some none else (pyFloat s).map some

/-- Why a loop body did not append its row: a caught `ValueError`, a
missing coordinate, a zero coordinate vector (lat/lon conversion
returns no result), a failed H3 library call, or a missing id
(star-info script). -/
inductive SkipReason where
  | valueErr
  | missingCoord
  | zeroVector
  | h3Fail
  | missingId
deriving DecidableEq, Repr

instance {ε σ : Type} [DecidableEq ε] [DecidableEq σ] : DecidableEq (Except ε σ) := fun a b =>
  match a, b with
  | .ok x, .ok y => decidable_of_iff (x = y) (by simp)
  | .error x, .error y => decidable_of_iff (x = y) (by simp)
  | .ok _, .error _ => isFalse (by simp)
  | .error _, .ok _ => isFalse (by simp)

/-- Body of the `for row in reader` loop of `read_and_sort_stars`
(`hyg_to_sqlite_h3.py` lines 151-171, and the first half of
`hyg_to_sqlite_brightest.py` lines 126-158): build the star dict —
any `ValueError` is caught and the row skipped with a warning — then
skip the row when any of x, y, z is `None`. -/
def parseRowH3 (r : Row) : Except SkipReason Star :=
  match convId r.id, convMag r.mag, convCoord r.x, convCoord r.y, convCoord r.z with
  | some i, some m, some ox, some oy, some oz =>
    match ox, oy, oz with
    | some xv, some yv, some zv =>
      .ok { id := i, mag := m, x := xv, y := yv, z := zv,
            spectClass := extractSpectralClass r.spect }
    | _, _, _ => .error .missingCoord
  | _, _, _, _, _ => .error .valueErr

/-- The common `for row in reader` accumulation shared (by copy-paste)
by all three CSV scripts: append on success, `continue` on any skip. -/
def loopStars {ρ σ : Type} (parse : ρ → Except SkipReason σ) : List ρ → List σ
  | [] => []
  | r :: rs =>
    match parse r with
    | .ok s => s :: loopStars parse rs
    | .error _ => loopStars parse rs

/-- The rows for which a loop prints the
`Warning: Skipping row with invalid data` message: exactly those whose
field conversion raised a `ValueError`. -/
def loopValueErrRows {ρ σ : Type} (parse : ρ → Except SkipReason σ) : List ρ → List ρ
  | [] => []
  | r :: rs =>
    match parse r with
    | .error .valueErr => r :: loopValueErrRows parse rs
    | _ => loopValueErrRows parse rs

/-- The accumulated star list of the read loop of `hyg_to_sqlite_h3.py`. -/
def readLoopH3 (rows : List Row) : List Star :=
  loopStars parseRowH3 rows

/-- The comparison key of `stars.sort(key=lambda x: x['mag'])`. -/
def magLE (a b : Star) : Bool :=
  a.mag ≤ b.mag

/-- Embedding of `read_and_sort_stars` of `hyg_to_sqlite_h3.py` (lines 143-180):
read all rows, then stable-sort ascending by magnitude (Python
`list.sort` is stable; `List.mergeSort` models it). -/
def readAndSortStarsH3 (rows : List Row) : List Star :=
  (readLoopH3 rows).mergeSort magLE

/-
## The brightest-N script (`hyg_to_sqlite_brightest.py`)
-/

/-- A star record enriched with its H3 cell (`star['h3_k'] = h3_hash`). -/
structure StarCell (Cell : Type) where
  star : Star
  cell : Cell
deriving DecidableEq, Repr

/-- Body of the read loop of `hyg_to_sqlite_brightest.py` (lines
126-158).  After the shared field extraction and coordinate check it
converts the coordinates to lat/lon — which fails exactly on the zero
vector — and calls `h3.latlng_to_cell(lat, lon, 0)`.  The external H3
call is the oracle `h3fn`, a function of the star's coordinates
(`none` models the exception caught at lines 147-149). -/
def parseRowBrightest {Cell : Type} (h3fn : ℚ → ℚ → ℚ → Option Cell)
    (r : Row) : Except SkipReason (StarCell Cell) :=
  match parseRowH3 r with
  | .error e => .error e
  | .ok s =>
    if s.x = 0 ∧ s.y = 0 ∧ s.z = 0 then .error .zeroVector
    else
      match h3fn s.x s.y s.z with
      | some c => .ok ⟨s, c⟩
      | none => .error .h3Fail

/-- The comparison key of the sort, lifted to enriched records. -/
def magLEC {Cell : Type} (a b : StarCell Cell) : Bool :=
  a.star.mag ≤ b.star.mag

/-- Embedding of `read_and_sort_stars(csv_file, brightest_n)` of
`hyg_to_sqlite_brightest.py` (lines 118-168): read and enrich the
rows, stable-sort ascending by magnitude, and return the slice
`stars[:brightest_n]`. -/
def readAndSortStarsBrightest {Cell : Type} (h3fn : ℚ → ℚ → ℚ → Option Cell)
    (rows : List Row) (brightestN : Nat) : List (StarCell Cell) :=
  ((loopStars (parseRowBrightest h3fn) rows).mergeSort magLEC).take brightestN

/-
## The H3 bucketing script (`hyg_to_sqlite_h3.py`)
-/

/-- The index list walked by `for i in range(start_index, end_index)`
with `end_index = min(start_index + count, len(stars))`
(`process_stars_with_h3`, lines 183-207). -/
def sliceIdx (len start cnt : Nat) : List Nat :=
  List.range' start (min (start + cnt) len - start)

/-- Embedding of `process_stars_with_h3(stars, start_index, count, h3_resolution)`:
walk the clamped index range; for each index enrich the star via
lat/lon conversion plus the H3 call, skipping stars where either
fails.  `enrich` is the oracle for one fixed resolution. -/
def processStarsWithH3 {Cell : Type} (enrich : Star → Option Cell)
    (stars : List Star) (start cnt : Nat) : List (StarCell Cell) :=
  (sliceIdx stars.length start cnt).filterMap fun i =>
    (stars[i]?).bind fun s => (enrich s).map (StarCell.mk s)

/-- The routing of `main()` of `hyg_to_sqlite_h3.py` (lines 373-391):
level 0 gets indices from `skip`, level 1 from `skip + lvl_0_count`,
and, when `--include-rest` is given and some indices remain, level 2
gets all `total - (skip + lvl_0_count + lvl_1_count)` remaining ones
(`stars_h3_2` stays `None` otherwise). -/
def h3MainTables {Cell : Type} (enrich0 enrich1 enrich2 : Star → Option Cell)
    (stars : List Star) (skip c0 c1 : Nat) (includeRest : Bool) :
    List (StarCell Cell) × List (StarCell Cell) × Option (List (StarCell Cell)) :=
  let t0 := processStarsWithH3 enrich0 stars skip c0
  let t1 := processStarsWithH3 enrich1 stars (skip + c0) c1
  let t2 :=
    if includeRest && decide (skip + c0 + c1 < stars.length) then
      some (processStarsWithH3 enrich2 stars (skip + c0 + c1)
        (stars.length - (skip + c0 + c1)))
    else none
  (t0, t1, t2)

/-
## The star-info script (`hyg_to_sqlite_star_info.py`)
-/

/-- The scalar a coerced CSV field becomes (`None`, `int`, `float` or
`str`). -/
inductive PyVal where
  | null
  | int (i : Int)
  | real (q : ℚ)
  | str (s : List Char)
deriving DecidableEq, Repr

/-- The `excluded_columns` set of `get_included_columns` (lines 64-68). -/
def excludedColumns : List String :=
  ["ra", "dec", "dist", "pmra", "pmdec", "rv",
   "vx", "vy", "vz", "rarad", "decrad", "pmrarad", "pmdecrad",
   "x", "y", "z"]

/-- Embedding of `get_included_columns(all_columns)` (lines 62-75): keep the CSV
columns, in order, that are not excluded. -/
def getIncludedColumns (allCols : List String) : List String :=
  allCols.filter fun c => !excludedColumns.contains c

/-- The integer allow-list shared by `read_stars` (line 96) and
`create_sqlite_database` (line 140). -/
def intAllowList : List String :=
  ["hip", "hd", "hr", "comp", "comp_primary", "flam"]

/-- The real allow-list shared by `read_stars` (line 98) and
`create_sqlite_database` (line 142). -/
def realAllowList : List String :=
  ["mag", "absmag", "ci", "lum", "var_min", "var_max"]

/-- The per-field coercion of `read_stars` (lines 93-102): `id` is
`int(value) if value else None`; integer allow-list columns are
`int(value) if value and value.strip() else None`; real allow-list
columns the same with `float`; everything else keeps the string,
with empty/whitespace-only mapped to `None`.  `none` at the outer
level models the raised `ValueError`. -/
def coerceValue (col : String) (value : List Char) : Option PyVal :=
  if col = "id" then
    if value = [] then some .null else (pyInt value).map .int
  else if col ∈ intAllowList then
    if value ≠ [] && pyStrip value ≠ [] then (pyInt value).map .int else some .null
  else if col ∈ realAllowList then
    if value ≠ [] && pyStrip value ≠ [] then (pyFloat value).map .real else some .null
  else
    some (if value ≠ [] && pyStrip value ≠ [] then .str value else .null)

/-- The column-type derivation of `create_sqlite_database`
(lines 136-145). -/
def columnDef (col : String) : String :=
  if col = "id" then col ++ " INTEGER PRIMARY KEY"
  else if col ∈ intAllowList then col ++ " INTEGER"
  else if col ∈ realAllowList then col ++ " REAL"
  else col ++ " TEXT"

/-- A raw star-info CSV row: column name to raw text.  `rowGet` models
`row.get(col, '')`. -/
def RowI : Type := List (String × List Char)

/-- Model of `row.get(col, '')`. -/
def rowGet (row : RowI) (col : String) : List Char :=
  ((row.find? fun p => p.1 = col).map Prod.snd).getD []

/-- The `for col in included_columns` dict-building loop of
`read_stars` (lines 89-102): coerce each included column in order; the
first `ValueError` aborts the row (`none`). -/
def coerceRow (row : RowI) : List String → Option (List (String × PyVal))
  | [] => some []
  | c :: cs =>
    match coerceValue c (rowGet row c), coerceRow row cs with
    | some v, some rest => some ((c, v) :: rest)
    | _, _ => none

/-- Body of the read loop of `read_stars` (lines 86-114): a coercion
`ValueError` skips the row with a warning; then `if star['id'] is
None` skips it with the no-ID warning.  The script guarantees
`'id' ∈ included_columns` (`validate_csv_file` requires the column and
`get_included_columns` never removes it), so the lookup-miss branch is
unreachable; it is modelled as the same skip. -/
def parseRowInfo (cols : List String) (row : RowI) :
    Except SkipReason (List (String × PyVal)) :=
  match coerceRow row cols with
  | none => .error .valueErr
  | some star =>
    match star.find? fun p => p.1 = "id" with
    | some (_, .int _) => .ok star
    | _ => .error .missingId

/-- Embedding of `read_stars(csv_file, included_columns)` (lines 78-120). -/
def readStarsInfo (cols : List String) (rows : List RowI) : List (List (String × PyVal)) :=
  loopStars (parseRowInfo cols) rows

/-
## The `INSERT OR REPLACE` table model (star-info script, lines 155-164)

`stars_info` declares `id INTEGER PRIMARY KEY`; `INSERT OR REPLACE`
deletes any existing row with the same `id` before inserting the new
one.  The table is modelled as a list of `(id, record)` pairs.
-/

/-- One `INSERT OR REPLACE` with key `k`: drop any row keyed `k`, then
insert the new row. -/
def insertOrReplace {σ : Type} (tbl : List (Int × σ)) (k : Int) (v : σ) :
    List (Int × σ) :=
  (tbl.filter fun p => p.1 ≠ k) ++ [(k, v)]

/-- The insert loop of `create_sqlite_database`, starting from the
freshly created empty table. -/
def insertAllRows {σ : Type} (rows : List (Int × σ)) : List (Int × σ) :=
  rows.foldl (fun t p => insertOrReplace t p.1 p.2) []

/-- The id under which a retained star-info record is inserted. -/
def starInfoId (star : List (String × PyVal)) : Option Int :=
  match star.find? fun p => p.1 = "id" with
  | some (_, .int i) => some i
  | _ => none

/-
## Error-handling outcomes (claim C3)

Each model maps "did the guarded file/database operation raise?" to
what the handler makes the process do.  `opFails = true` models an
exception raised inside the `try` block after `conn` is bound (for
`sqlite_dump.py`, a `sqlite3.Error`, the only class its handlers
catch).
-/

/-- What the process does after the guarded operation. -/
structure RunOutcome where
  errPrinted : Bool
  exitCode : Nat
deriving DecidableEq, Repr

/-- Outcome of `create_sqlite_database` of `hyg_to_sqlite_brightest.py` (lines
175-229): on any exception, print the error and `sys.exit(1)`; on
success the script finishes normally. -/
def createDbBrightestOutcome (opFails : Bool) : RunOutcome :=
  if opFails then ⟨true, 1⟩ else ⟨false, 0⟩

/-- Outcome of `inspect_database` of `sqlite_schema.py` (lines 162-184): both
handlers print and `sys.exit(1)`. -/
def inspectDatabaseOutcome (opFails : Bool) : RunOutcome :=
  if opFails then ⟨true, 1⟩ else ⟨false, 0⟩

/-- Outcome of `export_sqlite_to_sql_dump` of `sqlite_dump.py` (lines 16-31): a
`sqlite3.Error` is caught and printed, the function returns, and
`main` falls off the end — the process exits with status 0. -/
def exportDumpOutcome (opFails : Bool) : RunOutcome :=
  if opFails then ⟨true, 0⟩ else ⟨false, 0⟩

/-- Outcome of `import_sql_dump_to_sqlite` of `sqlite_dump.py` (lines 41-62):
same handler shape as the export path — print, return, exit 0. -/
def importDumpOutcome (opFails : Bool) : RunOutcome :=
  if opFails then ⟨true, 0⟩ else ⟨false, 0⟩

/-
## `cartesian_to_lat_lon` (claim C4), idealised over `ℝ`

`hyg_to_sqlite_brightest.py` lines 46-64 and `hyg_to_sqlite_h3.py`
lines 122-140.  The script's IEEE doubles and `math.sqrt` / `math.asin`
/ `math.atan2` are idealised as real numbers and the exact functions.
-/

/-- The two-argument arctangent, as computed by `math.atan2(y, x)`. -/
noncomputable def atan2R (y x : ℝ) : ℝ :=
  if 0 < x then Real.arctan (y / x)
  else if x < 0 then
    (if 0 ≤ y then Real.arctan (y / x) + Real.pi else Real.arctan (y / x) - Real.pi)
  else if 0 < y then Real.pi / 2
  else if y < 0 then -(Real.pi / 2)
  else 0

/-- Embedding of `cartesian_to_lat_lon(x, y, z)`: `None` when the magnitude is
zero, otherwise normalize and return
`(asin(z_norm) * 180 / pi, atan2(y_norm, x_norm) * 180 / pi)`. -/
noncomputable def cartesianToLatLon (x y z : ℝ) : Option (ℝ × ℝ) :=
  let m := Real.sqrt (x * x + y * y + z * z)
  if m = 0 then none
  else some (Real.arcsin (z / m) * 180 / Real.pi, atan2R (y / m) (x / m) * 180 / Real.pi)

/-
## Theorems
-/

/-- C1 counterexample: on the white-dwarf code `"DA"` the script's
case-insensitive test treats the leading uppercase `'D'` as the dwarf
prefix and answers `'A'`, while the claim's literal prefixes `"sd"` /
`"d"` do not match, so the claim's rule answers the first uppercase
letter `'D'`. -/
theorem claimC1_counterexample :
    extractSpectralClass ['D', 'A'] = some 'A' ∧
    spectralClassClaimC1 ['D', 'A'] = some 'D' ∧
    extractSpectralClass ['D', 'A'] ≠ spectralClassClaimC1 ['D', 'A'] := by
  decide

/-- C1 (amended): `extract_spectral_class` strips a leading `"sd"` or
`"d"` prefix matched case-insensitively, and only when at least one
character follows the prefix; it then returns the first uppercase
letter of the remainder, and returns none when the input is empty,
whitespace-only, or has no uppercase letter after the stripping —
i.e. it computes exactly `spectralClassAmendedC1`. -/
theorem claimC1_extract :
    ∀ spect : List Char, extractSpectralClass spect = spectralClassAmendedC1 spect := by
  intro spect
  simp only [extractSpectralClass, spectralClassAmendedC1]
  by_cases h0 : pyStrip spect = []
  · simp [h0]
  · by_cases h1 :
      (lowerStartsWith (pyStrip spect) ['s', 'd'] && decide (2 < (pyStrip spect).length)) = true
    · simp [h0, h1]
    · by_cases h2 :
        (lowerStartsWith (pyStrip spect) ['d'] && decide (1 < (pyStrip spect).length)) = true
      · simp [h0, h1, h2]
      · simp [h0, h1, h2]

/-- C3 counterexample: a `sqlite3.Error` inside
`export_sqlite_to_sql_dump` is caught and printed, but the process
then finishes normally with exit status 0, not a non-zero status. -/
theorem claimC3_counterexample :
    (exportDumpOutcome true).errPrinted = true ∧ (exportDumpOutcome true).exitCode = 0 := by
  decide

/-- C3 (amended): on a file/database failure every script prints a
message; the HYG conversion scripts and the schema inspector then exit
with status 1, but `sqlite_dump.py`'s export and import helpers
swallow the caught `sqlite3.Error` and the process exits with
status 0. -/
theorem claimC3_outcomes (opFails : Bool) :
    ((createDbBrightestOutcome opFails).errPrinted = opFails
      ∧ ((createDbBrightestOutcome opFails).exitCode ≠ 0 ↔ opFails = true))
    ∧ ((inspectDatabaseOutcome opFails).errPrinted = opFails
      ∧ ((inspectDatabaseOutcome opFails).exitCode ≠ 0 ↔ opFails = true))
    ∧ ((exportDumpOutcome opFails).errPrinted = opFails
      ∧ (exportDumpOutcome opFails).exitCode = 0)
    ∧ ((importDumpOutcome opFails).errPrinted = opFails
      ∧ (importDumpOutcome opFails).exitCode = 0) := by
  cases opFails <;> decide

/-- C4: `cartesian_to_lat_lon` returns no result exactly on the zero
vector; otherwise it normalizes and applies asin/atan2 in degrees, and
in particular the unit vector `(1, 0, 0)` maps to latitude 0 and
longitude 0. -/
theorem claimC4_latlon :
    (∀ x y z : ℝ, cartesianToLatLon x y z = none ↔ x = 0 ∧ y = 0 ∧ z = 0)
    ∧ cartesianToLatLon 1 0 0 = some (0, 0) := by
  constructor
  · intro x y z
    have hs : Real.sqrt (x * x + y * y + z * z) = 0 ↔ x = 0 ∧ y = 0 ∧ z = 0 := by
      rw [Real.sqrt_eq_zero']
      constructor
      · intro h
        refine ⟨?_, ?_, ?_⟩ <;>
          nlinarith [mul_self_nonneg x, mul_self_nonneg y, mul_self_nonneg z]
      · rintro ⟨rfl, rfl, rfl⟩
        norm_num
    simp only [cartesianToLatLon]
    split
    · next h => simpa using hs.mp h
    · next h =>
      constructor
      · intro hx
        exact absurd hx (Option.some_ne_none _)
      · intro hc
        exact absurd (hs.mpr hc) h
  · have h1 : Real.sqrt (1 * 1 + 0 * 0 + 0 * 0) = 1 := by
      rw [show (1 * 1 + 0 * 0 + 0 * 0 : ℝ) = 1 by norm_num, Real.sqrt_one]
    simp only [cartesianToLatLon, h1]
    norm_num [atan2R, Real.arcsin_zero, Real.arctan_zero]

theorem loopStars_append {ρ σ : Type} (parse : ρ → Except SkipReason σ) (xs ys : List ρ) :
    loopStars parse (xs ++ ys) = loopStars parse xs ++ loopStars parse ys := by
  induction xs with
  | nil => rfl
  | cons r rs ih =>
    simp only [List.cons_append, loopStars]
    cases parse r <;> simp [ih]

theorem loopValueErrRows_append {ρ σ : Type} (parse : ρ → Except SkipReason σ) (xs ys : List ρ) :
    loopValueErrRows parse (xs ++ ys)
      = loopValueErrRows parse xs ++ loopValueErrRows parse ys := by
  induction xs with
  | nil => rfl
  | cons r rs ih =>
    simp only [List.cons_append, loopValueErrRows]
    cases hp : parse r with
    | ok s => simp [ih]
    | error e => cases e <;> simp [ih]

/-- C9: in the brightest script's and the star-info script's read
loops, a row whose numeric field raises a `ValueError` is skipped by
itself — the star lists produced before and after it are unchanged —
and that row (alone among the unaffected neighbours) is logged with
the invalid-data warning. -/
theorem claimC9_row_failure_isolated {Cell : Type} (h3fn : ℚ → ℚ → ℚ → Option Cell)
    (cols : List String) (pre post : List Row) (bad : Row)
    (preI postI : List RowI) (badI : RowI) :
    (parseRowBrightest h3fn bad = .error .valueErr →
      loopStars (parseRowBrightest h3fn) (pre ++ bad :: post)
          = loopStars (parseRowBrightest h3fn) pre ++ loopStars (parseRowBrightest h3fn) post
        ∧ loopValueErrRows (parseRowBrightest h3fn) (pre ++ bad :: post)
          = loopValueErrRows (parseRowBrightest h3fn) pre
            ++ bad :: loopValueErrRows (parseRowBrightest h3fn) post)
    ∧ (parseRowInfo cols badI = .error .valueErr →
      readStarsInfo cols (preI ++ badI :: postI)
          = readStarsInfo cols preI ++ readStarsInfo cols postI
        ∧ loopValueErrRows (parseRowInfo cols) (preI ++ badI :: postI)
          = loopValueErrRows (parseRowInfo cols) preI
            ++ badI :: loopValueErrRows (parseRowInfo cols) postI) := by
  constructor
  · intro hbad
    constructor
    · rw [loopStars_append]
      have : loopStars (parseRowBrightest h3fn) (bad :: post)
          = loopStars (parseRowBrightest h3fn) post := by
        simp [loopStars, hbad]
      rw [this]
    · rw [loopValueErrRows_append]
      have : loopValueErrRows (parseRowBrightest h3fn) (bad :: post)
          = bad :: loopValueErrRows (parseRowBrightest h3fn) post := by
        simp [loopValueErrRows, hbad]
      rw [this]
  · intro hbad
    constructor
    · rw [readStarsInfo, loopStars_append]
      have : loopStars (parseRowInfo cols) (badI :: postI)
          = loopStars (parseRowInfo cols) postI := by
        simp [loopStars, hbad]
      rw [this, readStarsInfo, readStarsInfo]
    · rw [loopValueErrRows_append]
      have : loopValueErrRows (parseRowInfo cols) (badI :: postI)
          = badI :: loopValueErrRows (parseRowInfo cols) postI := by
        simp [loopValueErrRows, hbad]
      rw [this]

/-- Witness for C9 at concrete rows: an id of `"x"` (resp. `"y"`)
fails integer parsing, and the loops keep exactly the surrounding
valid rows. -/
theorem claimC9_witness :
    (loopStars (parseRowBrightest fun _ _ _ => (some () : Option Unit))
        ([] ++ (⟨['x'], [], ['0'], ['0'], ['1'], []⟩ : Row) :: [⟨['2'], ['3'], ['0'], ['0'], ['1'], []⟩])
      = loopStars (parseRowBrightest fun _ _ _ => (some () : Option Unit)) []
        ++ loopStars (parseRowBrightest fun _ _ _ => (some () : Option Unit))
            [⟨['2'], ['3'], ['0'], ['0'], ['1'], []⟩])
    ∧ (readStarsInfo ["id"] ([] ++ ([("id", ['y'])] : RowI) :: [[("id", ['4'])]])
      = readStarsInfo ["id"] [] ++ readStarsInfo ["id"] [[("id", ['4'])]]) :=
  ⟨((claimC9_row_failure_isolated (fun _ _ _ => (some () : Option Unit)) ["id"]
      [] [⟨['2'], ['3'], ['0'], ['0'], ['1'], []⟩] ⟨['x'], [], ['0'], ['0'], ['1'], []⟩
      [] [[("id", ['4'])]] [("id", ['y'])]).1 (by decide)).1,
   ((claimC9_row_failure_isolated (fun _ _ _ => (some () : Option Unit)) ["id"]
      [] [⟨['2'], ['3'], ['0'], ['0'], ['1'], []⟩] ⟨['x'], [], ['0'], ['0'], ['1'], []⟩
      [] [[("id", ['4'])]] [("id", ['y'])]).2 (by decide)).1⟩

theorem convCoord_some_iff (s : List Char) :
    (∃ v, convCoord s = some (some v)) ↔ (s ≠ [] ∧ (pyFloat s).isSome) := by
  unfold convCoord
  by_cases h : s = []
  · simp [h]
  · cases pyFloat s <;> simp [h]

theorem parseRowH3_ok_iff (r : Row) :
    (∃ s, parseRowH3 r = .ok s) ↔
      ((convId r.id).isSome ∧ (convMag r.mag).isSome
        ∧ (∃ v, convCoord r.x = some (some v))
        ∧ (∃ v, convCoord r.y = some (some v))
        ∧ (∃ v, convCoord r.z = some (some v))) := by
  unfold parseRowH3
  rcases hI : convId r.id with _ | oi <;>
    rcases hM : convMag r.mag with _ | m <;>
      rcases hX : convCoord r.x with _ | ox <;>
        rcases hY : convCoord r.y with _ | oy <;>
          rcases hZ : convCoord r.z with _ | oz <;>
            simp
  rcases ox with _ | xv <;> rcases oy with _ | yv <;> rcases oz with _ | zv <;> simp

theorem coerceRow_isSome_iff (row : RowI) (cols : List String) :
    (coerceRow row cols).isSome ↔ ∀ c ∈ cols, (coerceValue c (rowGet row c)).isSome := by
  induction cols with
  | nil => simp [coerceRow]
  | cons c cs ih =>
    simp only [coerceRow]
    cases hc : coerceValue c (rowGet row c) <;> cases hcs : coerceRow row cs <;>
      simp_all

theorem coerceRow_find_id (row : RowI) (cols : List String)
    (star : List (String × PyVal)) (h : coerceRow row cols = some star)
    (hid : "id" ∈ cols) :
    ∃ v, coerceValue "id" (rowGet row "id") = some v
      ∧ star.find? (fun p => p.1 = "id") = some ("id", v) := by
  induction cols generalizing star with
  | nil => cases hid
  | cons c cs ih =>
    simp only [coerceRow] at h
    cases hc : coerceValue c (rowGet row c) <;> rw [hc] at h
    · exact absurd h (by simp)
    · cases hcs : coerceRow row cs <;> rw [hcs] at h
      · exact absurd h (by simp)
      · next v rest =>
        cases h
        by_cases hceq : c = "id"
        · subst hceq
          exact ⟨v, hc, by simp [List.find?_cons]⟩
        · rcases List.mem_cons.mp hid with hmem | hmem
          · exact absurd hmem.symm hceq
          · obtain ⟨w, hw, hfind⟩ := ih rest hcs hmem
            exact ⟨w, hw, by simp [List.find?_cons, hceq, hfind]⟩

theorem parseRowInfo_ok_iff (cols : List String) (row : RowI) (hid : "id" ∈ cols) :
    (∃ st, parseRowInfo cols row = .ok st) ↔
      (rowGet row "id" ≠ [] ∧ (pyInt (rowGet row "id")).isSome
        ∧ ∀ c ∈ cols, (coerceValue c (rowGet row c)).isSome) := by
  unfold parseRowInfo
  cases hcr : coerceRow row cols with
  | none =>
    simp only []
    constructor
    · rintro ⟨st, hst⟩
      exact absurd hst (by simp)
    · rintro ⟨-, -, hall⟩
      have := (coerceRow_isSome_iff row cols).mpr hall
      rw [hcr] at this
      exact absurd this (by simp)
  | some star =>
    obtain ⟨v, hv, hfind⟩ := coerceRow_find_id row cols star hcr hid
    simp only [hfind]
    have hall : ∀ c ∈ cols, (coerceValue c (rowGet row c)).isSome :=
      (coerceRow_isSome_iff row cols).mp (by simp [hcr])
    have hvchar : ∀ i, v = .int i → (rowGet row "id" ≠ [] ∧ pyInt (rowGet row "id") = some i) := by
      intro i hvi
      subst hvi
      by_cases hempty : rowGet row "id" = []
      · simp [coerceValue, hempty] at hv
      · simp only [coerceValue, if_pos rfl, if_neg hempty] at hv
        cases hpi : pyInt (rowGet row "id") <;> rw [hpi] at hv <;> simp_all
    have hvchar2 : (rowGet row "id" ≠ [] ∧ (pyInt (rowGet row "id")).isSome) → ∃ i, v = .int i := by
      rintro ⟨hempty, hsome⟩
      cases hpi : pyInt (rowGet row "id") with
      | none => rw [hpi] at hsome; exact absurd hsome (by simp)
      | some i =>
        simp only [coerceValue, if_pos rfl, if_neg hempty, hpi] at hv
        exact ⟨i, by simp_all⟩
    cases v with
    | int i =>
      obtain ⟨h1, h2⟩ := hvchar i rfl
      constructor
      · intro _
        exact ⟨h1, by simp [h2], hall⟩
      · intro _
        exact ⟨star, rfl⟩
    | null =>
      simp only []
      constructor
      · rintro ⟨st, hst⟩
        exact absurd hst (by simp)
      · rintro ⟨h1, h2, -⟩
        obtain ⟨i, hi⟩ := hvchar2 ⟨h1, h2⟩
        cases hi
    | real q =>
      simp only []
      constructor
      · rintro ⟨st, hst⟩
        exact absurd hst (by simp)
      · rintro ⟨h1, h2, -⟩
        obtain ⟨i, hi⟩ := hvchar2 ⟨h1, h2⟩
        cases hi
    | str s =>
      simp only []
      constructor
      · rintro ⟨st, hst⟩
        exact absurd hst (by simp)
      · rintro ⟨h1, h2, -⟩
        obtain ⟨i, hi⟩ := hvchar2 ⟨h1, h2⟩
        cases hi

/-- C2 counterexample: in the brightest script a row whose x, y, z are
all present and all parse as numbers (`"0"`, `"0"`, `"0"`) is still
dropped, because the zero vector has no lat/lon and the loop skips the
row before appending it. -/
theorem claimC2_counterexample :
    (['0'] : List Char) ≠ [] ∧ pyFloat ['0'] = some 0
    ∧ parseRowBrightest (fun _ _ _ => (some () : Option Unit))
        ⟨['1'], ['2'], ['0'], ['0'], ['0'], []⟩ = .error .zeroVector := by
  decide

/-- C2 (amended): retention varies by script.  In the H3 script a row
is retained iff its id and mag fields convert without error and x, y,
z are all present and parse; in the brightest script a row is retained
iff additionally the parsed coordinate vector is nonzero and the H3
call succeeds; in the star-info script a row is retained iff its id
field is present and parses as an integer and every included column
coerces without error — x, y, z are not consulted there. -/
theorem claimC2_retention :
    (∀ r : Row, (∃ s, parseRowH3 r = .ok s) ↔
      ((convId r.id).isSome ∧ (convMag r.mag).isSome
        ∧ (r.x ≠ [] ∧ (pyFloat r.x).isSome)
        ∧ (r.y ≠ [] ∧ (pyFloat r.y).isSome)
        ∧ (r.z ≠ [] ∧ (pyFloat r.z).isSome)))
    ∧ (∀ (Cell : Type) (h3fn : ℚ → ℚ → ℚ → Option Cell) (r : Row),
        (∃ p, parseRowBrightest h3fn r = .ok p) ↔
          (∃ s, parseRowH3 r = .ok s
            ∧ ¬(s.x = 0 ∧ s.y = 0 ∧ s.z = 0)
            ∧ (h3fn s.x s.y s.z).isSome))
    ∧ (∀ (cols : List String) (row : RowI), "id" ∈ cols →
        ((∃ st, parseRowInfo cols row = .ok st) ↔
          (rowGet row "id" ≠ [] ∧ (pyInt (rowGet row "id")).isSome
            ∧ ∀ c ∈ cols, (coerceValue c (rowGet row c)).isSome))) := by
  refine ⟨?_, ?_, ?_⟩
  · intro r
    rw [parseRowH3_ok_iff, convCoord_some_iff, convCoord_some_iff, convCoord_some_iff]
  · intro Cell h3fn r
    constructor
    · rintro ⟨p, hp⟩
      unfold parseRowBrightest at hp
      split at hp
      · cases hp
      · next s heq =>
        by_cases hz : s.x = 0 ∧ s.y = 0 ∧ s.z = 0
        · rw [if_pos hz] at hp
          cases hp
        · rw [if_neg hz] at hp
          cases hc : h3fn s.x s.y s.z <;> rw [hc] at hp
          · cases hp
          · exact ⟨s, heq, hz, by simp [hc]⟩
    · rintro ⟨s, hs, hz, hsome⟩
      unfold parseRowBrightest
      rw [hs]
      cases hc : h3fn s.x s.y s.z with
      | none =>
        rw [hc] at hsome
        exact absurd hsome (by simp)
      | some c =>
        refine ⟨⟨s, c⟩, ?_⟩
        simp [hz, hc]
  · intro cols row hid
    exact parseRowInfo_ok_iff cols row hid

/-- Witness for C2 at a concrete star-info input: with the single
included column `id` holding `"5"`, the row is retained and the
characterization's right-hand side holds. -/
theorem claimC2_witness :
    (∃ st, parseRowInfo ["id"] [("id", ['5'])] = .ok st) ↔
      (rowGet [("id", ['5'])] "id" ≠ [] ∧ (pyInt (rowGet [("id", ['5'])] "id")).isSome
        ∧ ∀ c ∈ ["id"], (coerceValue c (rowGet [("id", ['5'])] c)).isSome) :=
  claimC2_retention.2.2 ["id"] [("id", ['5'])] (by decide)

theorem magLE_trans (a b c : Star) (hab : magLE a b = true) (hbc : magLE b c = true) :
    magLE a c = true := by
  simp only [magLE, decide_eq_true_eq] at *
  exact le_trans hab hbc

theorem magLE_total (a b : Star) : (magLE a b || magLE b a) = true := by
  simp only [magLE, Bool.or_eq_true, decide_eq_true_eq]
  exact le_total _ _

theorem magLEC_trans {Cell : Type} (a b c : StarCell Cell)
    (hab : magLEC a b = true) (hbc : magLEC b c = true) : magLEC a c = true := by
  simp only [magLEC, decide_eq_true_eq] at *
  exact le_trans hab hbc

theorem magLEC_total {Cell : Type} (a b : StarCell Cell) :
    (magLEC a b || magLEC b a) = true := by
  simp only [magLEC, Bool.or_eq_true, decide_eq_true_eq]
  exact le_total _ _

theorem parseRowH3_mag (r : Row) (s : Star) (hok : parseRowH3 r = .ok s) :
    convMag r.mag = some s.mag := by
  unfold parseRowH3 at hok
  split at hok
  · split at hok
    · cases hok
      simp_all
    · cases hok
  · cases hok

theorem filter_mergeSort_magLE (l : List Star) (p : Star → Bool)
    (hp : ∀ a b, p a = true → p b = true → magLE a b = true) :
    (l.mergeSort magLE).filter p = l.filter p := by
  have hpw : (l.filter p).Pairwise (fun a b => magLE a b = true) :=
    List.pairwise_of_forall_mem_list (by
      intro a ha b hb
      exact hp a b (List.mem_filter.mp ha).2 (List.mem_filter.mp hb).2)
  have hsl : (l.filter p).Sublist (l.mergeSort magLE) :=
    List.sublist_mergeSort magLE_trans magLE_total hpw (List.filter_sublist l)
  have hsl2 : ((l.filter p).filter p).Sublist ((l.mergeSort magLE).filter p) :=
    List.Sublist.filter p hsl
  rw [List.filter_filter] at hsl2
  have heq : (fun a => p a && p a) = p := by
    funext a
    cases p a <;> simp
  rw [heq] at hsl2
  have hlen : ((l.mergeSort magLE).filter p).length = (l.filter p).length :=
    ((List.mergeSort_perm l magLE).filter p).length_eq
  exact (hsl2.eq_of_length hlen.symm).symm

/-- C5: the H3 script's `read_and_sort_stars` returns a permutation of
the retained records, sorted ascending by magnitude; the sort is
stable (records of any fixed magnitude keep their CSV order — stated
as filter-invariance); a record with an empty magnitude field gets
magnitude `+∞` (`⊤`); and in the output every `⊤` record comes after
every record with a present (finite) magnitude. -/
theorem claimC5_sort (rows : List Row) :
    (readAndSortStarsH3 rows).Perm (readLoopH3 rows)
    ∧ (readAndSortStarsH3 rows).Pairwise (fun a b => a.mag ≤ b.mag)
    ∧ (∀ m : WithTop ℚ,
        (readAndSortStarsH3 rows).filter (fun s => s.mag = m)
          = (readLoopH3 rows).filter (fun s => s.mag = m))
    ∧ (∀ r s, r.mag = [] → parseRowH3 r = .ok s → s.mag = ⊤)
    ∧ (readAndSortStarsH3 rows).Pairwise (fun a b => a.mag = ⊤ → b.mag = ⊤) := by
  have hsorted := List.sorted_mergeSort magLE_trans magLE_total (readLoopH3 rows)
  refine ⟨List.mergeSort_perm _ _, ?_, ?_, ?_, ?_⟩
  · exact hsorted.imp (by
      intro a b h
      simpa [magLE] using h)
  · intro m
    apply filter_mergeSort_magLE
    intro a b ha hb
    simp only [decide_eq_true_eq] at ha hb
    simp [magLE, ha, hb]
  · intro r s hmag hok
    have hcm : convMag r.mag = some s.mag := parseRowH3_mag r s hok
    rw [hmag] at hcm
    simp only [convMag, if_pos rfl] at hcm
    exact (Option.some.inj hcm).symm
  · exact hsorted.imp (by
      intro a b h ha
      simp only [magLE, decide_eq_true_eq] at h
      rw [ha] at h
      exact top_le_iff.mp h)

/-- Witness for C5 at a concrete row with an empty magnitude field:
the retained record's magnitude is `+∞`. -/
theorem claimC5_witness :
    (⟨some 7, (⊤ : WithTop ℚ), 1, 0, 0, none⟩ : Star).mag = ⊤ :=
  (claimC5_sort []).2.2.2.1 ⟨['7'], [], ['1'], ['0'], ['0'], []⟩
    ⟨some 7, ⊤, 1, 0, 0, none⟩ rfl (by decide)

/-- C6: the brightest-N script returns exactly the first
`min(N, number of retained records)` entries of the magnitude-sorted
list, and every selected record's magnitude is at most the magnitude
of every retained record that was not selected. -/
theorem claimC6_brightest_slice {Cell : Type} (h3fn : ℚ → ℚ → ℚ → Option Cell)
    (rows : List Row) (n : Nat) :
    readAndSortStarsBrightest h3fn rows n
        = ((loopStars (parseRowBrightest h3fn) rows).mergeSort magLEC).take n
    ∧ (readAndSortStarsBrightest h3fn rows n).length
        = min n (loopStars (parseRowBrightest h3fn) rows).length
    ∧ ∀ s ∈ readAndSortStarsBrightest h3fn rows n,
        ∀ t ∈ ((loopStars (parseRowBrightest h3fn) rows).mergeSort magLEC).drop n,
          s.star.mag ≤ t.star.mag := by
  refine ⟨rfl, ?_, ?_⟩
  · simp [readAndSortStarsBrightest, List.length_take, List.length_mergeSort]
  · have hsorted : (((loopStars (parseRowBrightest h3fn) rows).mergeSort magLEC).take n
        ++ ((loopStars (parseRowBrightest h3fn) rows).mergeSort magLEC).drop n).Pairwise
          (fun a b => magLEC a b = true) := by
      rw [List.take_append_drop]
      exact List.sorted_mergeSort magLEC_trans magLEC_total _
    have hcmp := (List.pairwise_append.mp hsorted).2.2
    intro s hs t ht
    have h := hcmp s hs t ht
    simpa [magLEC] using h

/-- Witness for C6: two retained rows with magnitudes 2 and 3 and
`N = 1`; the selected record's magnitude is at most the unselected
one's. -/
theorem claimC6_witness :
    (⟨⟨some 1, ((2 : ℚ) : WithTop ℚ), 0, 0, 1, none⟩, ()⟩ : StarCell Unit).star.mag
      ≤ (⟨⟨some 2, ((3 : ℚ) : WithTop ℚ), 0, 0, 1, none⟩, ()⟩ : StarCell Unit).star.mag := by
  have h1 : loopStars (parseRowBrightest fun _ _ _ => (some () : Option Unit))
      [⟨['1'], ['2'], ['0'], ['0'], ['1'], []⟩, ⟨['2'], ['3'], ['0'], ['0'], ['1'], []⟩]
      = [⟨⟨some 1, ((2 : ℚ) : WithTop ℚ), 0, 0, 1, none⟩, ()⟩,
         ⟨⟨some 2, ((3 : ℚ) : WithTop ℚ), 0, 0, 1, none⟩, ()⟩] := by
    decide
  have h2 : ([⟨⟨some 1, ((2 : ℚ) : WithTop ℚ), 0, 0, 1, none⟩, ()⟩,
      ⟨⟨some 2, ((3 : ℚ) : WithTop ℚ), 0, 0, 1, none⟩, ()⟩] : List (StarCell Unit)).mergeSort magLEC
      = [⟨⟨some 1, ((2 : ℚ) : WithTop ℚ), 0, 0, 1, none⟩, ()⟩,
         ⟨⟨some 2, ((3 : ℚ) : WithTop ℚ), 0, 0, 1, none⟩, ()⟩] :=
    List.mergeSort_of_sorted (by decide)
  exact (claimC6_brightest_slice (fun _ _ _ => (some () : Option Unit))
      [⟨['1'], ['2'], ['0'], ['0'], ['1'], []⟩, ⟨['2'], ['3'], ['0'], ['0'], ['1'], []⟩] 1).2.2
    ⟨⟨some 1, ((2 : ℚ) : WithTop ℚ), 0, 0, 1, none⟩, ()⟩
    (by
      simp only [readAndSortStarsBrightest, h1, h2]
      decide)
    ⟨⟨some 2, ((3 : ℚ) : WithTop ℚ), 0, 0, 1, none⟩, ()⟩
    (by
      simp only [h1, h2]
      decide)

theorem mem_sliceIdx (len st cnt i : Nat) :
    i ∈ sliceIdx len st cnt ↔ (st ≤ i ∧ i < min (st + cnt) len) := by
  simp only [sliceIdx, List.mem_range'_1]
  omega

/-- C7: the H3 script's three tables draw from contiguous, pairwise
disjoint, length-clamped index ranges of the sorted list —
`[skip, skip+c0)`, `[skip+c0, skip+c0+c1)` and (with `--include-rest`)
all remaining indices — so no record is routed to two tables. -/
theorem claimC7_disjoint_ranges {Cell : Type} (enrich0 enrich1 enrich2 : Star → Option Cell)
    (stars : List Star) (skip c0 c1 : Nat) (includeRest : Bool) :
    ((h3MainTables enrich0 enrich1 enrich2 stars skip c0 c1 includeRest).1
        = processStarsWithH3 enrich0 stars skip c0)
    ∧ ((h3MainTables enrich0 enrich1 enrich2 stars skip c0 c1 includeRest).2.1
        = processStarsWithH3 enrich1 stars (skip + c0) c1)
    ∧ (∀ t2, (h3MainTables enrich0 enrich1 enrich2 stars skip c0 c1 includeRest).2.2 = some t2 →
        includeRest = true
          ∧ t2 = processStarsWithH3 enrich2 stars (skip + c0 + c1)
              (stars.length - (skip + c0 + c1)))
    ∧ (∀ i ∈ sliceIdx stars.length skip c0, skip ≤ i ∧ i < min (skip + c0) stars.length)
    ∧ (∀ i ∈ sliceIdx stars.length (skip + c0) c1,
        skip + c0 ≤ i ∧ i < min (skip + c0 + c1) stars.length)
    ∧ (∀ i, i ∈ sliceIdx stars.length (skip + c0 + c1) (stars.length - (skip + c0 + c1))
        ↔ (skip + c0 + c1 ≤ i ∧ i < stars.length))
    ∧ (∀ i, ¬(i ∈ sliceIdx stars.length skip c0 ∧ i ∈ sliceIdx stars.length (skip + c0) c1))
    ∧ (∀ i, ¬(i ∈ sliceIdx stars.length skip c0
        ∧ i ∈ sliceIdx stars.length (skip + c0 + c1) (stars.length - (skip + c0 + c1))))
    ∧ (∀ i, ¬(i ∈ sliceIdx stars.length (skip + c0) c1
        ∧ i ∈ sliceIdx stars.length (skip + c0 + c1) (stars.length - (skip + c0 + c1))))
    ∧ (∀ (enrich : Star → Option Cell) (st cnt : Nat),
        ∀ p ∈ processStarsWithH3 enrich stars st cnt,
          ∃ i ∈ sliceIdx stars.length st cnt,
            stars[i]? = some p.star ∧ enrich p.star = some p.cell) := by
  refine ⟨rfl, rfl, ?_, ?_, ?_, ?_, ?_, ?_, ?_, ?_⟩
  · intro t2 h
    simp only [h3MainTables] at h
    split at h
    · next hc =>
      cases h
      exact ⟨(Bool.and_eq_true _ _ |>.mp hc).1, rfl⟩
    · cases h
  · intro i hi
    exact (mem_sliceIdx _ _ _ _).mp hi
  · intro i hi
    have := (mem_sliceIdx _ _ _ _).mp hi
    omega
  · intro i
    rw [mem_sliceIdx]
    omega
  · intro i ⟨h1, h2⟩
    have a1 := (mem_sliceIdx _ _ _ _).mp h1
    have a2 := (mem_sliceIdx _ _ _ _).mp h2
    omega
  · intro i ⟨h1, h2⟩
    have a1 := (mem_sliceIdx _ _ _ _).mp h1
    have a2 := (mem_sliceIdx _ _ _ _).mp h2
    omega
  · intro i ⟨h1, h2⟩
    have a1 := (mem_sliceIdx _ _ _ _).mp h1
    have a2 := (mem_sliceIdx _ _ _ _).mp h2
    omega
  · intro enrich st cnt p hp
    simp only [processStarsWithH3] at hp
    obtain ⟨i, hi, hf⟩ := List.mem_filterMap.mp hp
    refine ⟨i, hi, ?_⟩
    cases hs : stars[i]? with
    | none =>
      rw [hs] at hf
      simp at hf
    | some s =>
      rw [hs] at hf
      cases he : enrich s with
      | none =>
        simp [he] at hf
      | some c =>
        simp only [Option.some_bind, he, Option.map_some'] at hf
        cases hf
        exact ⟨rfl, he⟩

/-- Witness for C7: with three retained stars, `skip = 1`, counts 1
and 0, the middle star is routed from index 1 of the level-0 range. -/
theorem claimC7_witness :
    ∃ i ∈ sliceIdx ([⟨some 1, ⊤, 0, 0, 1, none⟩, ⟨some 2, ⊤, 0, 1, 0, none⟩,
        ⟨some 3, ⊤, 1, 0, 0, none⟩] : List Star).length 1 1,
      ([⟨some 1, ⊤, 0, 0, 1, none⟩, ⟨some 2, ⊤, 0, 1, 0, none⟩,
        ⟨some 3, ⊤, 1, 0, 0, none⟩] : List Star)[i]?
          = some (⟨⟨some 2, ⊤, 0, 1, 0, none⟩, ()⟩ : StarCell Unit).star
        ∧ (fun _ => (some () : Option Unit)) (⟨⟨some 2, ⊤, 0, 1, 0, none⟩, ()⟩ : StarCell Unit).star
          = some (⟨⟨some 2, ⊤, 0, 1, 0, none⟩, ()⟩ : StarCell Unit).cell :=
  (claimC7_disjoint_ranges (fun _ => (some () : Option Unit)) (fun _ => some ())
      (fun _ => some ())
      [⟨some 1, ⊤, 0, 0, 1, none⟩, ⟨some 2, ⊤, 0, 1, 0, none⟩, ⟨some 3, ⊤, 1, 0, 0, none⟩]
      1 1 0 false).2.2.2.2.2.2.2.2.2
    (fun _ => some ()) 1 1 ⟨⟨some 2, ⊤, 0, 1, 0, none⟩, ()⟩ (by decide)

theorem coerceValue_classify (col : String) (v : List Char) (pv : PyVal)
    (h : coerceValue col v = some pv) :
    pv = .null
    ∨ (∃ i, pv = .int i ∧ (col = "id" ∨ col ∈ intAllowList))
    ∨ (∃ q, pv = .real q ∧ col ∈ realAllowList ∧ col ≠ "id" ∧ col ∉ intAllowList)
    ∨ (∃ s, pv = .str s ∧ col ≠ "id" ∧ col ∉ intAllowList ∧ col ∉ realAllowList) := by
  unfold coerceValue at h
  by_cases h1 : col = "id"
  · rw [if_pos h1] at h
    by_cases hv : v = []
    · rw [if_pos hv] at h
      cases h
      exact Or.inl rfl
    · rw [if_neg hv] at h
      cases hp : pyInt v <;> rw [hp] at h
      · cases h
      · simp only [Option.map_some'] at h
        cases h
        exact Or.inr (Or.inl ⟨_, rfl, Or.inl h1⟩)
  · rw [if_neg h1] at h
    by_cases h2 : col ∈ intAllowList
    · rw [if_pos h2] at h
      by_cases hv : (v ≠ [] && pyStrip v ≠ []) = true
      · rw [if_pos hv] at h
        cases hp : pyInt v <;> rw [hp] at h
        · cases h
        · simp only [Option.map_some'] at h
          cases h
          exact Or.inr (Or.inl ⟨_, rfl, Or.inr h2⟩)
      · rw [if_neg hv] at h
        cases h
        exact Or.inl rfl
    · rw [if_neg h2] at h
      by_cases h3 : col ∈ realAllowList
      · rw [if_pos h3] at h
        by_cases hv : (v ≠ [] && pyStrip v ≠ []) = true
        · rw [if_pos hv] at h
          cases hp : pyFloat v <;> rw [hp] at h
          · cases h
          · simp only [Option.map_some'] at h
            cases h
            exact Or.inr (Or.inr (Or.inl ⟨_, rfl, h3, h1, h2⟩))
        · rw [if_neg hv] at h
          cases h
          exact Or.inl rfl
      · rw [if_neg h3] at h
        cases h
        by_cases hv : (v ≠ [] && pyStrip v ≠ []) = true
        · rw [if_pos hv]
          exact Or.inr (Or.inr (Or.inr ⟨_, rfl, h1, h2, h3⟩))
        · rw [if_neg hv]
          exact Or.inl rfl

/-- C8: the generated column types follow the fixed allow-lists — the
integer allow-list columns (with `id` additionally marked PRIMARY KEY)
get INTEGER, the real allow-list columns get REAL, every other column
gets TEXT — and the per-row value coercion of `read_stars` agrees with
the same allow-lists: integer columns only ever hold NULL or `int`
values, real columns NULL or `float` values, text columns NULL or
`str` values, and conversely each produced value kind implies its
column's membership. -/
theorem claimC8_column_types :
    (∀ col ∈ intAllowList, columnDef col = col ++ " INTEGER")
    ∧ columnDef "id" = "id INTEGER PRIMARY KEY"
    ∧ (∀ col ∈ realAllowList, columnDef col = col ++ " REAL")
    ∧ (∀ col : String, col ≠ "id" → col ∉ intAllowList → col ∉ realAllowList →
        columnDef col = col ++ " TEXT")
    ∧ (∀ col v pv, coerceValue col v = some pv →
        ((∀ i, pv = .int i → (col = "id" ∨ col ∈ intAllowList))
          ∧ (∀ q, pv = .real q → col ∈ realAllowList)
          ∧ (∀ s, pv = .str s → (col ≠ "id" ∧ col ∉ intAllowList ∧ col ∉ realAllowList))))
    ∧ (∀ col ∈ intAllowList, ∀ v pv, coerceValue col v = some pv →
        (pv = .null ∨ ∃ i, pv = .int i))
    ∧ (∀ col ∈ realAllowList, ∀ v pv, coerceValue col v = some pv →
        (pv = .null ∨ ∃ q, pv = .real q))
    ∧ (∀ v pv, coerceValue "id" v = some pv → (pv = .null ∨ ∃ i, pv = .int i)) := by
  refine ⟨?_, ?_, ?_, ?_, ?_, ?_, ?_, ?_⟩
  · intro col hcol
    fin_cases hcol <;> decide
  · decide
  · intro col hcol
    fin_cases hcol <;> decide
  · intro col h1 h2 h3
    rw [columnDef, if_neg h1, if_neg h2, if_neg h3]
  · intro col v pv h
    refine ⟨?_, ?_, ?_⟩
    · intro i hi
      subst hi
      rcases coerceValue_classify col v _ h with hnull | ⟨j, hj, hcol⟩ | ⟨q, hq, -⟩ | ⟨s, hs, -⟩
      · cases hnull
      · exact hcol
      · cases hq
      · cases hs
    · intro q hq
      subst hq
      rcases coerceValue_classify col v _ h with hnull | ⟨j, hj, -⟩ | ⟨w, hw, hcol⟩ | ⟨s, hs, -⟩
      · cases hnull
      · cases hj
      · exact hcol.1
      · cases hs
    · intro s hs
      subst hs
      rcases coerceValue_classify col v _ h with hnull | ⟨j, hj, -⟩ | ⟨q, hq, -⟩ | ⟨w, hw, hcol⟩
      · cases hnull
      · cases hj
      · cases hq
      · exact hcol
  · intro col hcol v pv h
    rcases coerceValue_classify col v pv h with hnull | ⟨i, hi, -⟩ | ⟨q, hq, -, -, hni⟩ | ⟨s, hs, -, hni, -⟩
    · exact Or.inl hnull
    · exact Or.inr ⟨i, hi⟩
    · exact absurd hcol hni
    · exact absurd hcol hni
  · intro col hcol v pv h
    rcases coerceValue_classify col v pv h with hnull | ⟨i, hi, hc⟩ | ⟨q, hq, -⟩ | ⟨s, hs, -, -, hnr⟩
    · exact Or.inl hnull
    · rcases hc with rfl | hc
      · exact absurd hcol (by decide)
      · exact absurd hcol (by fin_cases hc <;> decide)
    · exact Or.inr ⟨q, hq⟩
    · exact absurd hcol hnr
  · intro v pv h
    rcases coerceValue_classify "id" v pv h with hnull | ⟨i, hi, -⟩ | ⟨q, -, -, hne, -⟩ | ⟨s, -, hne, -, -⟩
    · exact Or.inl hnull
    · exact Or.inr ⟨i, hi⟩
    · exact absurd rfl hne
    · exact absurd rfl hne

/-- Witness for C8 at concrete columns and values: `hip` is an INTEGER
column and coercing `"7"` in it yields an integer. -/
theorem claimC8_witness :
    columnDef "hip" = "hip" ++ " INTEGER"
    ∧ (PyVal.int 7 = .null ∨ ∃ i, PyVal.int 7 = .int i) :=
  ⟨claimC8_column_types.1 "hip" (by decide),
   claimC8_column_types.2.2.2.2.2.1 "hip" (by decide) ['7'] (.int 7) (by decide)⟩

theorem find?_filter_of_imp {α : Type} (l : List α) (p q : α → Bool)
    (h : ∀ a, p a = true → q a = true) :
    (l.filter q).find? p = l.find? p := by
  induction l with
  | nil => rfl
  | cons a rest ih =>
    by_cases hq : q a = true
    · rw [List.filter_cons_of_pos hq]
      simp only [List.find?_cons]
      cases hp : p a <;> simp [ih]
    · have hp : p a = false := by
        cases hpa : p a
        · rfl
        · exact absurd (h a hpa) hq
      rw [List.filter_cons_of_neg hq]
      simp [List.find?_cons, hp, ih]

theorem find?_filter_ne {σ : Type} (tbl : List (Int × σ)) (k j : Int) (hne : k ≠ j) :
    ((tbl.filter fun p => p.1 ≠ j).find? fun p => p.1 = k)
      = tbl.find? fun p => p.1 = k := by
  apply find?_filter_of_imp
  intro a ha
  simp only [decide_eq_true_eq] at ha ⊢
  rw [ha]
  exact hne

theorem find?_insertOrReplace {σ : Type} (tbl : List (Int × σ)) (j : Int) (v : σ) (k : Int) :
    ((insertOrReplace tbl j v).find? fun p => p.1 = k)
      = if k = j then some (j, v) else tbl.find? fun p => p.1 = k := by
  unfold insertOrReplace
  rw [List.find?_append]
  by_cases hk : k = j
  · subst hk
    have hnone : ((tbl.filter fun p => p.1 ≠ k).find? fun p => p.1 = k) = none := by
      rw [List.find?_eq_none]
      intro p hp
      have h2 := (List.mem_filter.mp hp).2
      simp only [decide_not, Bool.not_eq_true', decide_eq_false_iff_not] at h2
      simp [h2]
    rw [hnone, if_pos rfl]
    simp [List.find?_cons]
  · rw [find?_filter_ne tbl k j hk, if_neg hk]
    have hne' : ¬(j = k) := fun h => hk h.symm
    have hsingle : (([(j, v)] : List (Int × σ)).find? fun p => p.1 = k) = none := by
      simp [List.find?_cons, hne']
    rw [hsingle, Option.or_none]

theorem find?_insert_foldl {σ : Type} (rows : List (Int × σ)) (tbl : List (Int × σ)) (k : Int) :
    ((rows.foldl (fun t p => insertOrReplace t p.1 p.2) tbl).find? fun p => p.1 = k)
      = (rows.reverse.find? fun p => p.1 = k).or (tbl.find? fun p => p.1 = k) := by
  induction rows generalizing tbl with
  | nil => simp
  | cons r rs ih =>
    simp only [List.foldl_cons, List.reverse_cons, List.find?_append, Option.or_assoc]
    rw [ih, find?_insertOrReplace]
    by_cases hk : k = r.1
    · subst hk
      have hsingle : (([r] : List (Int × σ)).find? fun p => p.1 = r.1) = some r := by
        simp [List.find?_cons]
      rw [if_pos rfl, hsingle, Option.or_some]
    · have hne' : ¬(r.1 = k) := fun h => hk h.symm
      have hsingle : (([r] : List (Int × σ)).find? fun p => p.1 = k) = none := by
        simp [List.find?_cons, hne']
      rw [if_neg hk, hsingle]
      cases rs.reverse.find? fun p => p.1 = k <;> rfl

theorem insertOrReplace_pairwise {σ : Type} (tbl : List (Int × σ)) (j : Int) (v : σ)
    (ht : tbl.Pairwise fun p q => p.1 ≠ q.1) :
    (insertOrReplace tbl j v).Pairwise fun p q => p.1 ≠ q.1 := by
  unfold insertOrReplace
  rw [List.pairwise_append]
  refine ⟨List.Pairwise.sublist (List.filter_sublist tbl) ht, by simp, ?_⟩
  intro a ha b hb
  have h2 := (List.mem_filter.mp ha).2
  simp only [decide_not, Bool.not_eq_true', decide_eq_false_iff_not] at h2
  rw [List.mem_singleton.mp hb]
  exact h2

theorem parseRowInfo_id (cols : List String) (row : RowI) (st : List (String × PyVal))
    (hid : "id" ∈ cols) (hok : parseRowInfo cols row = .ok st) :
    ∃ i, starInfoId st = some i ∧ pyInt (rowGet row "id") = some i := by
  unfold parseRowInfo at hok
  cases hcr : coerceRow row cols <;> rw [hcr] at hok
  · cases hok
  · next star =>
    obtain ⟨v, hv, hfind⟩ := coerceRow_find_id row cols star hcr hid
    simp only [hfind] at hok
    cases v with
    | int i =>
      cases hok
      refine ⟨i, ?_, ?_⟩
      · unfold starInfoId
        rw [hfind]
      · by_cases hempty : rowGet row "id" = []
        · simp [coerceValue, hempty] at hv
        · simp only [coerceValue, if_pos rfl, if_neg hempty] at hv
          cases hpi : pyInt (rowGet row "id") <;> rw [hpi] at hv
          · cases hv
          · simp only [Option.map_some'] at hv
            cases hv
            rfl
    | null => cases hok
    | real q => cases hok
    | str s => cases hok

/-- C10: a star-info row is retained only when its id parses to an
integer; the table declares `id INTEGER PRIMARY KEY` and rows go in
with `INSERT OR REPLACE`, so the resulting table holds at most one row
per id, and a lookup finds the last CSV occurrence of a duplicated
id. -/
theorem claimC10_primary_key {σ : Type} :
    (∀ (cols : List String) (row : RowI) (st : List (String × PyVal)),
      "id" ∈ cols → parseRowInfo cols row = .ok st →
        ∃ i, starInfoId st = some i ∧ pyInt (rowGet row "id") = some i)
    ∧ columnDef "id" = "id" ++ " INTEGER PRIMARY KEY"
    ∧ (∀ rows : List (Int × σ), (insertAllRows rows).Pairwise fun p q => p.1 ≠ q.1)
    ∧ (∀ (rows : List (Int × σ)) (k : Int),
        ((insertAllRows rows).find? fun p => p.1 = k)
          = rows.reverse.find? fun p => p.1 = k) := by
  refine ⟨parseRowInfo_id, by decide, ?_, ?_⟩
  · intro rows
    unfold insertAllRows
    suffices h : ∀ tbl : List (Int × σ), (tbl.Pairwise fun p q => p.1 ≠ q.1) →
        ((rows.foldl (fun t p => insertOrReplace t p.1 p.2) tbl).Pairwise
          fun p q => p.1 ≠ q.1) from h [] (by simp)
    induction rows with
    | nil =>
      intro tbl ht
      simpa using ht
    | cons r rs ih =>
      intro tbl ht
      simp only [List.foldl_cons]
      exact ih _ (insertOrReplace_pairwise tbl r.1 r.2 ht)
  · intro rows k
    unfold insertAllRows
    rw [find?_insert_foldl]
    simp

/-- Witness for C10: the single-column row `id = "3"` is retained with
integer id 3. -/
theorem claimC10_witness :
    ∃ i, starInfoId [("id", PyVal.int 3)] = some i
      ∧ pyInt (rowGet [("id", ['3'])] "id") = some i :=
  (claimC10_primary_key (σ := Unit)).1 ["id"] [("id", ['3'])] [("id", PyVal.int 3)]
    (by decide) (by decide)

end StarryNight
